import Mathlib

/-!
Verification development for the bank-statement ETL program (`bank.py`).

The program's per-source pipeline, text cleaning, categorization, type
reclassification, per-category amount-column expansion, source merging,
aggregation and calendar derivation are shallowly embedded below.  Python
floats are modelled as `Rat`, dates as proleptic-Gregorian ordinals
(`Int`/`Nat`), pandas `NaN` cells as `Option`, raised Python exceptions as
`Except` errors, and a DataFrame as a list of rows together with
column-presence flags.  Text operations model CPython's ASCII behaviour
(`str.strip`, `str.lower`, `re.sub` for the fixed pattern used by the
program, and the substring operator `in`).
-/

namespace Bank

/-! ### Characters: the ASCII fragment of CPython's str operations -/

/-- Whitespace test on code points: the ASCII characters removed by Python's
`str.strip()` (space, tab, newline, vertical tab, form feed, carriage return). -/
def spaceNat (n : Nat) : Bool :=
  n = 32 || n = 9 || n = 10 || n = 11 || n = 12 || n = 13

/-- Characters stripped by `str.strip()`. -/
def pyIsSpace (c : Char) : Bool :=
  spaceNat c.toNat

/-- Test for the regex class `[A-Za-z]`. -/
def isAsciiLetter (c : Char) : Bool :=
  (65 ≤ c.toNat && c.toNat ≤ 90) || (97 ≤ c.toNat && c.toNat ≤ 122)

/-- Test for the regex class `\d` (ASCII digits). -/
def isAsciiDigit (c : Char) : Bool :=
  48 ≤ c.toNat && c.toNat ≤ 57

/-- Python's `str.lower()` applied to a list of characters (ASCII case map,
as in `Char.toLower`). -/
def lowerStr (l : List Char) : List Char :=
  l.map Char.toLower

/-- Leading-whitespace removal, the front half of `str.strip()`. -/
def stripLeft (l : List Char) : List Char :=
  l.dropWhile pyIsSpace

/-- Trailing-whitespace removal, the back half of `str.strip()`. -/
def stripRight (l : List Char) : List Char :=
  (stripLeft l.reverse).reverse

/-- Python's `str.strip()`: remove leading and trailing whitespace. -/
def stripStr (l : List Char) : List Char :=
  stripRight (stripLeft l)

/-! ### The regex `[A-Za-z]?\/\d{2}-\d{2}-\d{2}` of `bank.py` line 104 -/

/-- Match the mandatory part `\/\d{2}-\d{2}-\d{2}` at the head of the list;
on success return the remainder after the match. -/
def coreMatch : List Char → Option (List Char)
  | '/' :: d1 :: d2 :: '-' :: d3 :: d4 :: '-' :: d5 :: d6 :: rest =>
    if isAsciiDigit d1 && isAsciiDigit d2 && isAsciiDigit d3 && isAsciiDigit d4 &&
       isAsciiDigit d5 && isAsciiDigit d6 then some rest else none
  | _ => none

/-- Match the full pattern `[A-Za-z]?\/\d{2}-\d{2}-\d{2}` at the head of the
list (greedy optional letter, exactly as the backtracking engine tries it);
on success return the remainder after the match. -/
def matchHere (l : List Char) : Option (List Char) :=
  match l with
  | [] => none
  | c :: rest =>
    if isAsciiLetter c then
      match coreMatch rest with
      | some r => some r
      | none => coreMatch l
    else coreMatch l

/-- Fuelled scanner for `re.sub(pattern, "", s)`: at each position try the
pattern; on a match drop the matched characters and continue after them,
otherwise keep the character and move one position right.  The fuel only
serves termination; `subAll` supplies enough for the scan to finish. -/
def subAllGo : Nat → List Char → List Char
  | 0, l => l
  | _ + 1, [] => []
  | fuel + 1, c :: rest =>
    match matchHere (c :: rest) with
    | some r => subAllGo fuel r
    | none => c :: subAllGo fuel rest

/-- Python's `re.sub(r"[A-Za-z]?\/\d{2}-\d{2}-\d{2}", "", s)`: remove every
non-overlapping leftmost match. -/
def subAll (l : List Char) : List Char :=
  subAllGo l.length l

/-- Does any position of the list start a match of the pattern? -/
def hasMatch : List Char → Bool
  | [] => false
  | c :: rest => (matchHere (c :: rest)).isSome || hasMatch rest

/-- Text normalization of `load_and_transform_data_from_source_clean_data`
(lines 100-109): strip, remove every pattern match, strip again, lowercase. -/
def cleanText (l : List Char) : List Char :=
  lowerStr (stripStr (subAll (stripStr l)))

/-- String-level wrapper of `cleanText`. -/
def cleanTextStr (s : String) : String :=
  ⟨cleanText s.data⟩

/-! ### Python's substring operator `in` -/

/-- Does `needle` occur at the head of `hay`? -/
def listStartsWith : List Char → List Char → Bool
  | _, [] => true
  | [], _ :: _ => false
  | c :: cs, n :: ns => c == n && listStartsWith cs ns

/-- Does `needle` occur anywhere in `hay` (Python's `needle in hay`)? -/
def listContainsSub : List Char → List Char → Bool
  | [], needle => needle.isEmpty
  | c :: rest, needle => listStartsWith (c :: rest) needle || listContainsSub rest needle

/-- Python's `keyword in text` on strings. -/
def strIn (needle hay : String) : Bool :=
  listContainsSub hay.data needle.data

/-! ### Python exceptions and the source descriptor (lines 38-53) -/

/-- Exceptions raised by the modelled code paths. -/
inductive PyErr where
  | typeError (msg : String)
  | keyError (key : String)
  | valueError (msg : String)
deriving DecidableEq, Repr

/-- Raw source descriptor as read from settings: every field may be absent. -/
structure RawSource where
  path : Option String
  type : Option String
  modifier : Option Rat
  account : Option String
deriving DecidableEq, Repr

/-- Enriched source descriptor: all fields present. -/
structure Source where
  path : String
  type : String
  modifier : Rat
  account : String
deriving DecidableEq, Repr

/-- Model of `load_and_transform_data_from_source_enrich_source`
(lines 38-53): `path` and `type` are required (a `ValueError` is raised in
that order when absent); `modifier` defaults to `1.0` and `account` to
`"Default"` (each with a printed notice, a side effect not modelled). -/
def load_and_transform_data_from_source_enrich_source (s : RawSource) : Except PyErr Source :=
  match s.path with
  | none => .error (.valueError "Source must have a path")
  | some p =>
    match s.type with
    | none => .error (.valueError "Source must have a type")
    | some t =>
      .ok { path := p, type := t, modifier := s.modifier.getD 1, account := s.account.getD "Default" }

/-- Source-type registry entry; only the fields the modelled lines read are
kept (`columns` and `skipRows` act before the mapped table this model
starts from). -/
structure SourceType where
  minAmount : Option Rat
  maxAmount : Option Rat
deriving DecidableEq, Repr

/-! ### The mapped table: rows plus column-presence flags -/

/-- One row of the per-source table.  A `none` cell models pandas `NaN`.
`amountCols` holds the per-category `Amount<Category>` columns added by the
expander (empty until then). -/
structure FRow where
  date : Option Int
  amount : Option Rat
  text : Option String
  type : Option String
  category : Option String
  amountCols : List (String × Rat)
deriving DecidableEq, Repr

/-- A per-source DataFrame after column renaming/dropping: the rows plus
which canonical columns exist.  Cells of an absent column are `none` by
convention.  `hasCalendar` stands for the presence of the derived
`Year`..`IsWeekend` columns, whose values are pure functions of `Date` and
are not read by any modelled downstream step. -/
structure Frame where
  hasDate : Bool
  hasAmount : Bool
  hasText : Bool
  hasType : Bool
  hasCategory : Bool
  hasCalendar : Bool
  rows : List FRow
deriving DecidableEq, Repr

/-- Decidable equality of `Except` results, so that concrete pipeline runs
can be checked by evaluation. -/
instance {ε α : Type} [DecidableEq ε] [DecidableEq α] : DecidableEq (Except ε α) := fun
  | .error e, .error f =>
    decidable_of_iff (e = f) ⟨fun h => by rw [h], fun h => by cases h; rfl⟩
  | .error _, .ok _ => isFalse (by intro h; cases h)
  | .ok _, .error _ => isFalse (by intro h; cases h)
  | .ok a, .ok b =>
    decidable_of_iff (a = b) ⟨fun h => by rw [h], fun h => by cases h; rfl⟩

/-! ### Pipeline stages of `load_and_transform_data_from_source` -/

/-- Model of `load_and_transform_data_from_source_add_additional_columns_from_date`
(lines 55-76): a no-op when `Date` is absent; otherwise it adds the derived
calendar columns (pure functions of `Date`, never failing; `.dt` accessors
map `NaT` to `NaN`). -/
def load_and_transform_data_from_source_add_additional_columns_from_date (f : Frame) : Frame :=
  if f.hasDate then { f with hasCalendar := true } else f

/-- The sign-based type of line 84, `"Income" if x > 0 else "Expense"`.
A `NaN` amount compares `False` under `> 0`, hence classifies as
`"Expense"`. -/
def signType (amount : Option Rat) : String :=
  match amount with
  | some a => if 0 < a then "Income" else "Expense"
  | none => "Expense"

/-- Model of `load_and_transform_data_from_source_add_additional_columns_from_amount`
(lines 78-86): a no-op when `Amount` is absent; otherwise sets
`Type = "Income" if x > 0 else "Expense"`. -/
def load_and_transform_data_from_source_add_additional_columns_from_amount (f : Frame) : Frame :=
  if f.hasAmount then
    { f with
      hasType := true
      rows := f.rows.map fun r => { r with type := some (signType r.amount) } }
  else f

/-- Clean one list of rows' `Text` cells as lines 100-109 do: `str.strip()`
keeps `NaN` cells, but the subsequent `apply` of `re.sub` raises a
`TypeError` on a non-string (`NaN`) cell. -/
def cleanTextCells (rows : List FRow) : Except PyErr (List FRow) :=
  rows.mapM fun r =>
    match r.text with
    | some t => .ok { r with text := some (cleanTextStr t) }
    | none => .error (.typeError "expected string or bytes-like object")

/-- Model of `load_and_transform_data_from_source_clean_data` (lines 88-111):
`dropna(subset=["Date"])` then `dropna(subset=["Amount"])` — each raises a
`KeyError` when the named column is absent — then Text normalization. -/
def load_and_transform_data_from_source_clean_data (f : Frame) : Except PyErr Frame :=
  if f.hasDate = false then .error (.keyError "Date")
  else
    let rows1 := f.rows.filter fun r => r.date.isSome
    if f.hasAmount = false then .error (.keyError "Amount")
    else
      let rows2 := rows1.filter fun r => r.amount.isSome
      if f.hasText then
        match cleanTextCells rows2 with
        | .error e => .error e
        | .ok rows3 => .ok { f with rows := rows3 }
      else .ok { f with rows := rows2 }

/-- Model of line 153, `data['Amount'] = data['Amount'] * source['modifier']`:
reading a missing `Amount` column raises a `KeyError`. -/
def apply_modifier (modifier : Rat) (f : Frame) : Except PyErr Frame :=
  if f.hasAmount then
    .ok { f with rows := f.rows.map fun r => { r with amount := r.amount.map (· * modifier) } }
  else .error (.keyError "Amount")

/-- Indexing a Python `str` with a string key, as line 158's
`source['type']['minAmount']` does: this always raises a `TypeError`
(string indices must be integers), so it never produces a value. -/
def pyStringGetItem (_s _key : String) : Except PyErr Empty :=
  .error (.typeError "string indices must be integers")

/-- Model of lines 155-160.  The comparison's left operand `data['Amount']`
is evaluated first (a `KeyError` when the column is absent); then the bound
expression `source_types[source['type']['minAmount']]` indexes the string
`source['type']` with the key `'minAmount'`, which raises a `TypeError`
before any row can be filtered.  With neither bound configured the frame
passes through unchanged. -/
def applyRangeFilter (typeName : String) (st : SourceType) (f : Frame) : Except PyErr Frame :=
  match st.minAmount with
  | some _ =>
    if f.hasAmount then
      match pyStringGetItem typeName "minAmount" with
      | .error e => .error e
      | .ok v => nomatch v
    else .error (.keyError "Amount")
  | none =>
    match st.maxAmount with
    | some _ =>
      if f.hasAmount then
        match pyStringGetItem typeName "maxAmount" with
        | .error e => .error e
        | .ok v => nomatch v
      else .error (.keyError "Amount")
    | none => .ok f

/-! ### Categorizer (lines 168-185)

The loop iterates `data.iterrows()`.  Each yielded `row` is a Series built
from a snapshot of the frame's columns and values taken when the iteration
starts, so the test `'Category' in row` (line 181) consults that snapshot:
it is `True` for every row when the mapped table already had a `Category`
column, and `False` for every row otherwise — writes performed through
`data.at` during the loop are invisible to it.  Hence when no `Category`
column pre-exists, the outer `break` never fires and a later matching
category overwrites an earlier one. -/

/-- One row's scan of the rule map, as the code executes it.
`snapshotHasCategory` is the pre-loop presence of the `Category` column,
`acc` the row's current `Category` cell. -/
def categorize_scan (snapshotHasCategory : Bool) (text : String) :
    List (String × List String) → Option String → Option String
  | [], acc => acc
  | (category, keywords) :: rest, acc =>
    let acc2 := if keywords.any (fun kw => strIn kw text) then some category else acc
    if snapshotHasCategory then acc2
    else categorize_scan snapshotHasCategory text rest acc2

/-- The category a row with `Text` value `text` ends up with after the scan
and the `fillna('Uncategorized')` of line 185 (which requires the column to
exist, see `fillna_category`), starting from an empty cell. -/
def assigned_category (snapshotHasCategory : Bool) (text : String)
    (rules : List (String × List String)) : String :=
  (categorize_scan snapshotHasCategory text rules none).getD "Uncategorized"

/-- Specification-side categorizer, following the spec's words for the
comparison in claim C1: the first category (in rule-map order) whose
keyword list contains a keyword that is a substring of the text;
`"Uncategorized"` when none matches. -/
def categorize_spec (text : String) (rules : List (String × List String)) : String :=
  match rules.find? (fun ck => ck.2.any (fun kw => strIn kw text)) with
  | some ck => ck.1
  | none => "Uncategorized"

/-- Model of the loop at lines 168-183 over the whole frame.  The `Category`
column exists afterwards iff it existed before or some row received an
assignment (`data.at` creates the column on first write). -/
def categorize_stage (rules : List (String × List String)) (f : Frame) : Frame :=
  if f.hasText then
    { f with
      rows := f.rows.map fun r =>
        match r.text with
        | some t => { r with category := categorize_scan f.hasCategory t rules r.category }
        | none => r
      hasCategory := f.hasCategory || f.rows.any fun r =>
        match r.text with
        | some t => rules.any fun ck => ck.2.any fun kw => strIn kw t
        | none => false }
  else f

/-- Model of line 185, `data['Category'] = data['Category'].fillna('Uncategorized')`:
reading `data['Category']` raises a `KeyError` when the column never came
into existence (no `Text` column, or no row matched any keyword). -/
def fillna_category (f : Frame) : Except PyErr Frame :=
  if f.hasCategory then
    .ok { f with rows := f.rows.map fun r => { r with category := some (r.category.getD "Uncategorized") } }
  else .error (.keyError "Category")

/-- Model of lines 187-193: rows with `Category == 'Investments'` get
`Type = 'Investment'`, then rows with `Category == 'Transfers'` get
`Type = 'Transfer'`.  This stage is only reached with the `Type` column
present (the pipeline fails earlier when `Amount` is absent). -/
def reclassify_stage (f : Frame) : Frame :=
  let rows1 := f.rows.map fun r =>
    if r.category = some "Investments" then { r with type := some "Investment" } else r
  let rows2 := rows1.map fun r =>
    if r.category = some "Transfers" then { r with type := some "Transfer" } else r
  { f with rows := rows2 }

/-! ### Category column expander (lines 196-207) -/

/-- The category list of lines 196-197: the rule-map keys followed by
`"Uncategorized"`. -/
def allCategories (rules : List (String × List String)) : List String :=
  (rules.map Prod.fst) ++ ["Uncategorized"]

/-- Value of the column `Amount<c>` on a row, line 207:
`x['Amount'] if x['Category'] == category else 0`. -/
def amountCell (r : FRow) (c : String) : Rat :=
  if r.category = some c then r.amount.getD 0 else 0

/-- Per-row effect of the loop at lines 205-207.  The DataFrame's column set
is the deduplication of the generated names (a repeated category name
reassigns the same column with the same values). -/
def expandRow (rules : List (String × List String)) (r : FRow) : FRow :=
  { r with amountCols := (allCategories rules).dedup.map fun c => (c, amountCell r c) }

/-- The expander over the whole frame. -/
def expander_stage (rules : List (String × List String)) (f : Frame) : Frame :=
  { f with rows := f.rows.map (expandRow rules) }

/-! ### The per-source pipeline from the mapped table (lines 141-209) -/

/-- Stages of `load_and_transform_data_from_source` past the column mapping,
used to name where a run fails (the Python traceback's location). -/
inductive Stage where
  | cleanData
  | applyModifierStage
  | rangeFilterStage
  | categorizeFill
deriving DecidableEq, Repr

/-- Tag an error with the stage raising it. -/
def stageErr (s : Stage) : Except PyErr α → Except (Stage × PyErr) α
  | .error e => .error (s, e)
  | .ok a => .ok a

/-- Model of `load_and_transform_data_from_source` (lines 141-209) from the
point where the mapped table exists: calendar columns, sign classification,
cleaning, modifier, range filter, categorization with fillna,
reclassification, column expansion. -/
def load_and_transform_data_from_source_mapped (src : Source) (st : SourceType)
    (rules : List (String × List String)) (f0 : Frame) : Except (Stage × PyErr) Frame :=
  let f1 := load_and_transform_data_from_source_add_additional_columns_from_date f0
  let f2 := load_and_transform_data_from_source_add_additional_columns_from_amount f1
  match stageErr .cleanData (load_and_transform_data_from_source_clean_data f2) with
  | .error e => .error e
  | .ok f3 =>
    match stageErr .applyModifierStage (apply_modifier src.modifier f3) with
    | .error e => .error e
    | .ok f4 =>
      match stageErr .rangeFilterStage (applyRangeFilter src.type st f4) with
      | .error e => .error e
      | .ok f5 =>
        let f6 := categorize_stage rules f5
        match stageErr .categorizeFill (fillna_category f6) with
        | .error e => .error e
        | .ok f7 => .ok (expander_stage rules (reclassify_stage f7))

/-! ### Source merger, `load_and_transform_data_from_sources` (lines 212-232) -/

/-- A row of a transformed per-source table as the merger sees it: the
`Date` key the sort reads (an ordinal; the cleaner has dropped null dates)
and an opaque payload standing for all remaining columns, which makes the
order of equal-date rows observable. -/
structure TRow where
  date : Int
  payload : Nat
deriving DecidableEq, Repr

/-- Comparator of the descending `Date` sort. -/
def dateGE (a b : TRow) : Prop :=
  b.date ≤ a.date

instance : DecidableRel dateGE :=
  fun a b => inferInstanceAs (Decidable (b.date ≤ a.date))

instance : IsTotal TRow dateGE :=
  ⟨fun a b => Int.le_total b.date a.date⟩

instance : IsTrans TRow dateGE :=
  ⟨fun _ _ _ hab hbc => le_trans hbc hab⟩

/-- Model of `data.sort_values("Date", ascending=False)` (line 230): one
executable refinement of the library call, sorting on the `Date` key
descending.  pandas' default `kind='quicksort'` is documented as not
stable, so the order of equal-`Date` rows is not a program guarantee and
no theorem below relies on this model's tie order: the merger theorems
assert only what every sort kind delivers — a permutation of the input
sorted by the key. -/
def sortByDateDesc (l : List TRow) : List TRow :=
  l.insertionSort dateGE

/-- Model of `load_and_transform_data_from_sources` (lines 212-232): `data`
starts as `None`; each per-source table is appended with `pd.concat`; the
result is sorted by `Date` descending.  With no sources at all, `data` is
still `None` at line 230 and `None.sort_values` raises an
`AttributeError`, modelled as `none`. -/
def load_and_transform_data_from_sources (tables : List (List TRow)) : Option (List TRow) :=
  match tables with
  | [] => none
  | t :: ts => some (sortByDateDesc (ts.foldl (fun acc u => acc ++ u) t))

/-! ### Aggregator, `aggregate_report` (lines 234-275)

Only the pure tabular core is modelled: the groupby aggregate and the
top-25 extraction.  Directory creation, CSV writing and plotting are the
output sink.  Aggregated rows are reduced to the grouping key and the
summed `Amount`; the columns aggregated with `'first'` do not affect the
claimed properties. -/

/-- A row of the aggregate result: grouping-key value and summed `Amount`. -/
structure ARow where
  key : Int
  amount : Int
deriving DecidableEq, Repr

/-- Comparator of the descending `Amount` sort. -/
def amountGE (a b : ARow) : Prop :=
  b.amount ≤ a.amount

instance : DecidableRel amountGE :=
  fun a b => inferInstanceAs (Decidable (b.amount ≤ a.amount))

instance : IsTotal ARow amountGE :=
  ⟨fun a b => Int.le_total b.amount a.amount⟩

instance : IsTrans ARow amountGE :=
  ⟨fun _ _ _ hab hbc => le_trans hbc hab⟩

/-- Model of line 252, `data.groupby(by_column).agg(...).reset_index()`:
one row per distinct key (keys sorted ascending, pandas' default), with the
group's `Amount` values summed. -/
def groupagg (rows : List ARow) : List ARow :=
  (((rows.map ARow.key).dedup).insertionSort (· ≤ ·)).map fun k =>
    { key := k, amount := ((rows.filter fun r => r.key = k).map ARow.amount).sum }

/-- Model of line 255, `aggregated.nlargest(25, 'Amount').sort_values('Amount',
ascending=False)`: `nlargest` takes the first 25 rows of the
descending-by-`Amount` ordering, and the subsequent `sort_values` re-sorts
that subset by `Amount` descending. -/
def top_25_amounts (agg : List ARow) : List ARow :=
  ((agg.insertionSort amountGE).take 25).insertionSort amountGE

/-- The pair of result tables `aggregate_report` emits to its output sink:
the full aggregate and the top-25 subset. -/
def aggregate_report_tables (rows : List ARow) : List ARow × List ARow :=
  (groupagg rows, top_25_amounts (groupagg rows))

/-! ### Calendar derivation (lines 70-71): ISO week columns

`data["Week"] = data["Date"].dt.strftime("%G-W%V")` and
`data["WeekNumber"] = data["Date"].dt.isocalendar().week` delegate to the
platform's ISO-8601 week computation; the model below is a direct
translation of CPython's `datetime` implementation (`_isoweek1monday` and
`isocalendar`) over proleptic-Gregorian ordinals. -/

/-- Gregorian leap-year test. -/
def isLeapYear (y : Nat) : Bool :=
  (y % 4 = 0 && y % 100 ≠ 0) || y % 400 = 0

/-- Number of days of month `m` of year `y`. -/
def monthLength (y : Nat) : Nat → Nat
  | 1 => 31
  | 2 => if isLeapYear y then 29 else 28
  | 3 => 31
  | 4 => 30
  | 5 => 31
  | 6 => 30
  | 7 => 31
  | 8 => 31
  | 9 => 30
  | 10 => 31
  | 11 => 30
  | 12 => 31
  | _ => 0

/-- Days in year `y` before the first day of month `m`. -/
def daysBeforeMonth (y m : Nat) : Nat :=
  ((List.range (m - 1)).map fun i => monthLength y (i + 1)).sum

/-- Days before January 1 of year `y` (proleptic Gregorian). -/
def daysBeforeYear (y : Nat) : Nat :=
  365 * (y - 1) + (y - 1) / 4 - (y - 1) / 100 + (y - 1) / 400

/-- Proleptic-Gregorian ordinal of a date; day 1 is 0001-01-01 (CPython's
`date.toordinal`). -/
def toordinal (y m d : Nat) : Int :=
  ((daysBeforeYear y + daysBeforeMonth y m + d : Nat) : Int)

/-- Ordinal of the Monday starting ISO week 1 of year `y` (CPython's
`_isoweek1monday`; Monday is weekday 0, Thursday 3). -/
def isoweek1monday (y : Nat) : Int :=
  let firstday := toordinal y 1 1
  let firstweekday := (firstday + 6) % 7
  let week1monday := firstday - firstweekday
  if 3 < firstweekday then week1monday + 7 else week1monday

/-- ISO year and ISO week number of a date (CPython's `date.isocalendar`,
ignoring the weekday component). -/
def isocalendar (y m d : Nat) : Nat × Nat :=
  let today := toordinal y m d
  let week := (today - isoweek1monday y).fdiv 7
  if week < 0 then
    let y1 := y - 1
    let week1 := (today - isoweek1monday y1).fdiv 7
    (y1, (week1 + 1).toNat)
  else if 52 ≤ week ∧ isoweek1monday (y + 1) ≤ today then
    (y + 1, 1)
  else
    (y, (week + 1).toNat)

/-- Zero-padded two-digit rendering, as `%V` formats the week number. -/
def pad2 (n : Nat) : String :=
  if n < 10 then "0" ++ toString n else toString n

/-- The `Week` column of line 70: `strftime("%G-W%V")`, the ISO year-week
identifier. -/
def weekColumn (y m d : Nat) : String :=
  toString (isocalendar y m d).1 ++ "-W" ++ pad2 (isocalendar y m d).2

/-- The `WeekNumber` column of line 71: `isocalendar().week`. -/
def weekNumberColumn (y m d : Nat) : Nat :=
  (isocalendar y m d).2

/-! ## Supporting lemmas on the text cleaner -/

/-- Dropping a prefix by `p` twice is the same as dropping it once. -/
theorem dropWhile_dropWhile_same (p : Char → Bool) :
    ∀ l : List Char, (l.dropWhile p).dropWhile p = l.dropWhile p
  | [] => rfl
  | c :: t => by
    by_cases h : p c
    · simpa [List.dropWhile_cons, h] using dropWhile_dropWhile_same p t
    · simp [List.dropWhile_cons, h]

/-- The `dropWhile` of an appended final element failing `p` keeps that
element in place. -/
theorem dropWhile_append_last (p : Char → Bool) (c : Char) (hc : p c = false) :
    ∀ X : List Char, (X ++ [c]).dropWhile p = X.dropWhile p ++ [c]
  | [] => by simp [List.dropWhile_cons, hc]
  | a :: X => by
    by_cases h : p a
    · simpa [List.dropWhile_cons, h] using dropWhile_append_last p c hc X
    · simp [List.dropWhile_cons, h]

theorem stripLeft_stripLeft (l : List Char) : stripLeft (stripLeft l) = stripLeft l :=
  dropWhile_dropWhile_same pyIsSpace l

theorem stripRight_stripRight (l : List Char) : stripRight (stripRight l) = stripRight l := by
  simp [stripRight, List.reverse_reverse, stripLeft_stripLeft]

/-- A list without leading whitespace still has none after stripping its
trailing whitespace. -/
theorem stripLeft_stripRight (m : List Char) (hm : stripLeft m = m) :
    stripLeft (stripRight m) = stripRight m := by
  cases m with
  | nil => rfl
  | cons c t =>
    have hc : pyIsSpace c = false := by
      by_contra hcc
      have hc' : pyIsSpace c = true := by simpa using hcc
      have h1 : stripLeft (c :: t) = stripLeft t := by
        simp [stripLeft, List.dropWhile_cons, hc']
      have h2 : (stripLeft t).length ≤ t.length :=
        (List.dropWhile_sublist pyIsSpace).length_le
      rw [hm] at h1
      have h3 : (c :: t).length ≤ t.length := h1 ▸ h2
      simp at h3
    have hsr : stripRight (c :: t) = c :: (stripLeft t.reverse).reverse := by
      unfold stripRight stripLeft
      rw [List.reverse_cons, dropWhile_append_last pyIsSpace c hc t.reverse]
      simp [List.reverse_append]
    rw [hsr]
    simp [stripLeft, List.dropWhile_cons, hc]

theorem stripStr_stripStr (l : List Char) : stripStr (stripStr l) = stripStr l := by
  unfold stripStr
  rw [stripLeft_stripRight (stripLeft l) (stripLeft_stripLeft l)]
  exact stripRight_stripRight (stripLeft l)

/-- An ASCII uppercase letter is lowered by adding 32 to its code point. -/
theorem toLower_of_upper (c : Char) (h : 65 ≤ c.toNat ∧ c.toNat ≤ 90) :
    c.toLower = Char.ofNat (c.toNat + 32) := by
  show (if c.toNat ≥ 65 ∧ c.toNat ≤ 90 then Char.ofNat (c.toNat + 32) else c) =
    Char.ofNat (c.toNat + 32)
  exact if_pos h

/-- Any other character is fixed by `Char.toLower`. -/
theorem toLower_of_not_upper (c : Char) (h : ¬(65 ≤ c.toNat ∧ c.toNat ≤ 90)) :
    c.toLower = c := by
  show (if c.toNat ≥ 65 ∧ c.toNat ≤ 90 then Char.ofNat (c.toNat + 32) else c) = c
  exact if_neg h

theorem toLower_toLower (c : Char) : c.toLower.toLower = c.toLower := by
  by_cases h : 65 ≤ c.toNat ∧ c.toNat ≤ 90
  · rw [toLower_of_upper c h]
    obtain ⟨ha, hb⟩ := h
    revert ha hb
    generalize c.toNat = n
    intro ha hb
    interval_cases n <;> decide
  · rw [toLower_of_not_upper c h, toLower_of_not_upper c h]

theorem pyIsSpace_toLower (c : Char) : pyIsSpace c.toLower = pyIsSpace c := by
  by_cases h : 65 ≤ c.toNat ∧ c.toNat ≤ 90
  · rw [toLower_of_upper c h]
    obtain ⟨ha, hb⟩ := h
    unfold pyIsSpace
    revert ha hb
    generalize c.toNat = n
    intro ha hb
    interval_cases n <;> decide
  · rw [toLower_of_not_upper c h]

theorem lowerStr_lowerStr (l : List Char) : lowerStr (lowerStr l) = lowerStr l := by
  unfold lowerStr
  rw [List.map_map]
  exact List.map_congr_left fun c _ => toLower_toLower c

theorem stripLeft_lowerStr (l : List Char) :
    stripLeft (lowerStr l) = lowerStr (stripLeft l) := by
  unfold stripLeft lowerStr
  rw [List.dropWhile_map]
  rw [show (pyIsSpace ∘ Char.toLower) = pyIsSpace from funext fun c => pyIsSpace_toLower c]

theorem stripRight_lowerStr (l : List Char) :
    stripRight (lowerStr l) = lowerStr (stripRight l) := by
  unfold stripRight
  rw [show (lowerStr l).reverse = lowerStr l.reverse by
      unfold lowerStr; rw [List.map_reverse],
    stripLeft_lowerStr]
  unfold lowerStr
  rw [List.map_reverse]

theorem stripStr_lowerStr (l : List Char) :
    stripStr (lowerStr l) = lowerStr (stripStr l) := by
  unfold stripStr
  rw [stripLeft_lowerStr, stripRight_lowerStr]

/-- A scan with enough fuel over a list with no pattern occurrence changes
nothing. -/
theorem subAllGo_eq_of_not_hasMatch :
    ∀ (fuel : Nat) (l : List Char), hasMatch l = false → l.length ≤ fuel →
      subAllGo fuel l = l
  | 0, _, _, _ => rfl
  | _ + 1, [], _, _ => rfl
  | fuel + 1, c :: rest, hm, hlen => by
    have h1 : (matchHere (c :: rest)).isSome = false ∧ hasMatch rest = false := by
      simpa [hasMatch] using hm
    have h2 : matchHere (c :: rest) = none :=
      Option.not_isSome_iff_eq_none.mp (by simp [h1.1])
    simp only [subAllGo, h2]
    rw [subAllGo_eq_of_not_hasMatch fuel rest h1.2 (by simpa using Nat.le_of_succ_le_succ hlen)]

/-- `re.sub` over a string with no pattern occurrence changes nothing. -/
theorem subAll_eq_of_not_hasMatch (l : List Char) (h : hasMatch l = false) :
    subAll l = l :=
  subAllGo_eq_of_not_hasMatch l.length l h le_rfl

/-- The cleaner's output carries no leading or trailing whitespace. -/
theorem stripStr_cleanText (x : List Char) : stripStr (cleanText x) = cleanText x := by
  unfold cleanText
  rw [stripStr_lowerStr, stripStr_stripStr]

/-- Core of claim C4 as amended: on cleaned text with no residual pattern
occurrence, cleaning again changes nothing. -/
theorem cleanText_cleanText (x : List Char) (h : hasMatch (cleanText x) = false) :
    cleanText (cleanText x) = cleanText x := by
  conv_lhs => rw [cleanText]
  rw [stripStr_cleanText, subAll_eq_of_not_hasMatch _ h, stripStr_cleanText]
  show lowerStr (lowerStr (stripStr (subAll (stripStr x)))) =
    lowerStr (stripStr (subAll (stripStr x)))
  exact lowerStr_lowerStr _

/-! ## Supporting lemmas on the categorizer and the expander -/

/-- With no pre-existing `Category` column, the scan either leaves the cell
unchanged or assigns the name of some rule-map entry. -/
theorem categorize_scan_result (t : String) :
    ∀ (rules : List (String × List String)) (acc : Option String),
      categorize_scan false t rules acc = acc ∨
        ∃ ck, ck ∈ rules ∧ categorize_scan false t rules acc = some ck.1
  | [], _ => Or.inl rfl
  | (c, kws) :: rest, acc => by
    have hstep : categorize_scan false t ((c, kws) :: rest) acc =
        categorize_scan false t rest (if kws.any (fun kw => strIn kw t) then some c else acc) := by
      simp [categorize_scan]
    rw [hstep]
    by_cases h : kws.any (fun kw => strIn kw t)
    · rw [if_pos h]
      rcases categorize_scan_result t rest (some c) with h1 | ⟨ck, hck, h1⟩
      · exact Or.inr ⟨(c, kws), List.mem_cons_self _ _, h1⟩
      · exact Or.inr ⟨ck, List.mem_cons_of_mem _ hck, h1⟩
    · rw [if_neg h]
      rcases categorize_scan_result t rest acc with h1 | ⟨ck, hck, h1⟩
      · exact Or.inl h1
      · exact Or.inr ⟨ck, List.mem_cons_of_mem _ hck, h1⟩

/-- Every row ends with a category drawn from the rule-map keys plus
`"Uncategorized"`. -/
theorem assigned_category_mem (t : String) (rules : List (String × List String)) :
    assigned_category false t rules ∈ allCategories rules := by
  unfold assigned_category allCategories
  rcases categorize_scan_result t rules none with h | ⟨ck, hck, h⟩
  · rw [h]; simp
  · rw [h]
    simp only [Option.getD_some]
    exact List.mem_append.mpr (Or.inl (List.mem_map.mpr ⟨ck, hck, rfl⟩))

/-- Summing an indicator-style map over a duplicate-free list containing the
distinguished element yields that element's value. -/
theorem sum_map_ite_single {cats : List String} {cat : String} (a : Rat)
    (hn : cats.Nodup) (hm : cat ∈ cats) :
    (cats.map fun c => if cat = c then a else 0).sum = a := by
  induction cats with
  | nil => cases hm
  | cons c rest ih =>
    rw [List.map_cons, List.sum_cons]
    rcases List.mem_cons.mp hm with h | h
    · subst h
      rw [if_pos rfl]
      have hrest : ((rest.map fun c => if cat = c then a else 0)).sum = 0 := by
        apply List.sum_eq_zero
        intro x hx
        obtain ⟨c', hc', rfl⟩ := List.mem_map.mp hx
        have hne : cat ≠ c' := fun hh => (List.nodup_cons.mp hn).1 (hh ▸ hc')
        rw [if_neg hne]
      rw [hrest, add_zero]
    · have hne : cat ≠ c := fun hh => (List.nodup_cons.mp hn).1 (hh ▸ h)
      rw [if_neg hne, zero_add]
      exact ih (List.nodup_cons.mp hn).2 h

/-! ## Supporting lemmas on the merger and the aggregator -/

/-- The merger's `pd.concat` fold is plain concatenation of all tables. -/
theorem foldl_append_eq_flatten :
    ∀ (ts : List (List TRow)) (t : List TRow),
      ts.foldl (fun acc u => acc ++ u) t = t ++ ts.flatten
  | [], t => by simp
  | u :: ts, t => by
    simp only [List.foldl_cons, List.flatten_cons]
    rw [foldl_append_eq_flatten ts (t ++ u), List.append_assoc]

/-! ## Sample data shared by witnesses -/

/-- A small categorization rule map. -/
def sampleRules : List (String × List String) :=
  [("Subscriptions", ["netflix"]), ("Investments", ["avanza"])]

/-- A cleaned, categorized row. -/
def sampleRow : FRow :=
  { date := some 739251, amount := some (-109), text := some "netflix.com",
    type := some "Expense", category := some "Subscriptions", amountCols := [] }

/-- A frame holding `sampleRow`, with the columns a transformed source has. -/
def sampleFrame : Frame :=
  { hasDate := true, hasAmount := true, hasText := true, hasType := true,
    hasCategory := false, hasCalendar := true, rows := [sampleRow] }

/-- Two small per-source tables (3 + 2 rows) with a shared date, exercising
the merger's sort and its tie handling. -/
def tablesEx : List (List TRow) :=
  [[⟨3, 0⟩, ⟨7, 1⟩, ⟨3, 2⟩], [⟨5, 3⟩, ⟨3, 4⟩]]

/-- A positive-amount row categorized as Investments, before
reclassification (sign-based type `"Income"`). -/
def investRow : FRow :=
  { date := some 1, amount := some 500, text := some "avanza",
    type := some "Income", category := some "Investments", amountCols := [] }

/-- The same row after reclassification. -/
def investRowOut : FRow :=
  { investRow with type := some "Investment" }

/-- A frame holding `investRow`. -/
def investFrame : Frame :=
  { hasDate := true, hasAmount := true, hasText := true, hasType := true,
    hasCategory := true, hasCalendar := true, rows := [investRow] }

/-- Rows for the aggregator: two groups under key `1`, one under key `2`. -/
def aggRowsEx : List ARow :=
  [⟨1, 10⟩, ⟨1, 5⟩, ⟨2, 3⟩]

/-- An enriched source descriptor. -/
def sampleSource : Source :=
  { path := "a.csv", type := "bank", modifier := 1, account := "Default" }

/-- A source type with no amount bounds. -/
def noBounds : SourceType :=
  { minAmount := none, maxAmount := none }

/-- A mapped table with a `Date` column but no `Amount` column. -/
def noAmountFrame : Frame :=
  { hasDate := true, hasAmount := false, hasText := false, hasType := false,
    hasCategory := false, hasCalendar := false,
    rows := [⟨some 1, none, none, none, none, []⟩] }

/-! ## Claim theorems -/

/-- C1: the claim says the FIRST category (in rule-map order) with a keyword
occurring in the row's `Text` is assigned.  The code intends this (`# We
break after the first match`, line 167, and the break at line 182), but the
`iterrows` snapshot makes the test `'Category' in row` always false when no
`Category` column pre-exists, so the outer loop never breaks and the LAST
matching category overwrites earlier ones: on text `"ab"` under rules
`Groceries ↦ ["a"]`, `Transport ↦ ["b"]` the code yields `"Transport"`
while the claimed (and intended) result is `"Groceries"`. -/
theorem categorizer_last_match_wins :
    assigned_category false "ab" [("Groceries", ["a"]), ("Transport", ["b"])] = "Transport" ∧
    categorize_spec "ab" [("Groceries", ["a"]), ("Transport", ["b"])] = "Groceries" ∧
    ("Transport" : String) ≠ "Groceries" := by
  decide

/-- C2: for a row with `Amount = some a` and a `Category` drawn from the
rule-map keys plus `"Uncategorized"`, the expander's columns carry `a` at
the row's category and `0` elsewhere; hence they sum to `a`, at most one is
non-zero, and all can vanish only when `a = 0`. -/
theorem expander_partition :
    ∀ (rules : List (String × List String)) (r : FRow) (a : Rat) (cat : String),
      r.amount = some a → r.category = some cat → cat ∈ allCategories rules →
      ((((expandRow rules r).amountCols.map Prod.snd).sum = a) ∧
       (∀ c ∈ (allCategories rules).dedup,
          (c, if cat = c then a else 0) ∈ (expandRow rules r).amountCols) ∧
       (∀ p ∈ (expandRow rules r).amountCols, p.2 = if cat = p.1 then a else 0) ∧
       (∀ p ∈ (expandRow rules r).amountCols, ∀ q ∈ (expandRow rules r).amountCols,
          p.2 ≠ 0 → q.2 ≠ 0 → p.1 = q.1) ∧
       ((∀ p ∈ (expandRow rules r).amountCols, p.2 = 0) → a = 0)) := by
  intro rules r a cat ha hcat hmem
  have hcols : (expandRow rules r).amountCols =
      (allCategories rules).dedup.map fun c => (c, if cat = c then a else 0) := by
    unfold expandRow
    apply List.map_congr_left
    intro c _
    unfold amountCell
    rw [ha, hcat]
    simp
  refine ⟨?_, ?_, ?_, ?_, ?_⟩
  · rw [hcols, List.map_map]
    exact sum_map_ite_single a (List.nodup_dedup _) (List.mem_dedup.mpr hmem)
  · intro c hc
    rw [hcols]
    exact List.mem_map.mpr ⟨c, hc, rfl⟩
  · intro p hp
    rw [hcols] at hp
    obtain ⟨c, _, rfl⟩ := List.mem_map.mp hp
    rfl
  · intro p hp q hq hp0 hq0
    rw [hcols] at hp hq
    obtain ⟨c, _, rfl⟩ := List.mem_map.mp hp
    obtain ⟨c', _, rfl⟩ := List.mem_map.mp hq
    by_cases h1 : cat = c
    · by_cases h2 : cat = c'
      · simp only []
        rw [← h1, ← h2]
      · exact absurd (by simp [if_neg h2]) hq0
    · exact absurd (by simp [if_neg h1]) hp0
  · intro hall
    have h := hall (cat, if cat = cat then a else 0)
      (by rw [hcols]; exact List.mem_map.mpr ⟨cat, List.mem_dedup.mpr hmem, rfl⟩)
    simpa using h

/-- Witness for C2 at the spec's end-to-end example row. -/
theorem expander_partition_witness :
    sampleRow.amount = some (-109) ∧ sampleRow.category = some "Subscriptions" ∧
    "Subscriptions" ∈ allCategories sampleRules ∧
    ((expandRow sampleRules sampleRow).amountCols.map Prod.snd).sum = -109 :=
  ⟨rfl, rfl, by decide,
    (expander_partition sampleRules sampleRow (-109) "Subscriptions" rfl rfl (by decide)).1⟩

/-- C3: the claim says a configured `minAmount`/`maxAmount` bound drops the
out-of-range rows.  In the code the bound expression
`source_types[source['type']['minAmount']]` (line 158) indexes the string
`source['type']` with a string key, which raises a `TypeError`: whenever
either bound is configured the pipeline crashes instead of filtering (here
the claim would keep the frame unchanged for `minAmount = 0` since the
row's amount `-109` would be dropped — instead nothing is returned at
all); only the no-bounds case passes rows through unchanged. -/
theorem range_filter_raises :
    applyRangeFilter "bank" { minAmount := some 0, maxAmount := none } sampleFrame =
      .error (.typeError "string indices must be integers") ∧
    applyRangeFilter "bank" { minAmount := none, maxAmount := some 100 } sampleFrame =
      .error (.typeError "string indices must be integers") ∧
    applyRangeFilter "bank" { minAmount := none, maxAmount := none } sampleFrame =
      .ok sampleFrame := by
  decide

/-- C4 (counterexample): text cleaning is NOT idempotent.  Removing the
match `/22-33-44` from `"a/11-1/22-33-441-11"` splices the surrounding
characters into the fresh match `a/11-11-11`, which a second cleaning
removes: `clean x = "a/11-11-11"` but `clean (clean x) = ""`. -/
theorem clean_not_idempotent :
    cleanTextStr "a/11-1/22-33-441-11" = "a/11-11-11" ∧
    cleanTextStr (cleanTextStr "a/11-1/22-33-441-11") = "" ∧
    cleanTextStr (cleanTextStr "a/11-1/22-33-441-11") ≠ cleanTextStr "a/11-1/22-33-441-11" := by
  decide

/-- C4 (amended): cleaning is idempotent on exactly the strings whose
cleaned form contains no residual occurrence of the pattern
`[A-Za-z]?\/\d{2}-\d{2}-\d{2}` (a single substitution pass can splice text
surrounding a removed match into a new match; when it does not, stripping,
substitution and lowercasing are all fixed on the cleaned text). -/
theorem clean_idempotent_of_no_residual_match :
    ∀ s : String, hasMatch (cleanTextStr s).data = false →
      cleanTextStr (cleanTextStr s) = cleanTextStr s := by
  intro s h
  show (⟨cleanText (cleanText s.data)⟩ : String) = ⟨cleanText s.data⟩
  rw [cleanText_cleanText s.data h]

/-- Witness for C4 at the spec's end-to-end example text. -/
theorem clean_idempotent_witness :
    hasMatch (cleanTextStr "  NETFLIX.COM M/24-05-05 ").data = false ∧
    cleanTextStr (cleanTextStr "  NETFLIX.COM M/24-05-05 ") =
      cleanTextStr "  NETFLIX.COM M/24-05-05 " :=
  ⟨by decide, clean_idempotent_of_no_residual_match "  NETFLIX.COM M/24-05-05 " (by decide)⟩

/-- C5 (counterexample): the claim quantifies over every list of tables,
but with no sources `data` is still `None` at line 230 and
`None.sort_values` raises an `AttributeError` — no (empty) table is
produced. -/
theorem merger_empty_crashes :
    load_and_transform_data_from_sources [] = none ∧
    (none : Option (List TRow)) ≠ some [] := by
  decide

/-- C5 (amended): for every NONEMPTY list of per-source tables the merger
succeeds, and the table it returns contains every row of the row-wise
concatenation of all tables exactly once (a permutation: no rows lost,
added or deduplicated) and is sorted by `Date` descending.  The order of
equal-`Date` rows is not asserted: pandas' default sort kind is not
stable, so only properties invariant under tie order are guaranteed. -/
theorem merger_concat_sort :
    ∀ tables : List (List TRow), tables ≠ [] →
      ((load_and_transform_data_from_sources tables).isSome = true ∧
       ∀ out, load_and_transform_data_from_sources tables = some out →
         (out.Perm tables.flatten ∧ out.Sorted dateGE)) := by
  intro tables hne
  obtain ⟨t, ts, rfl⟩ := List.exists_cons_of_ne_nil hne
  have hload : load_and_transform_data_from_sources (t :: ts) =
      some (sortByDateDesc ((t :: ts).flatten)) := by
    show some (sortByDateDesc (ts.foldl (fun acc u => acc ++ u) t)) = _
    rw [foldl_append_eq_flatten ts t, List.flatten_cons]
  constructor
  · rw [hload]
    rfl
  · intro out hout
    rw [hload] at hout
    obtain rfl : sortByDateDesc ((t :: ts).flatten) = out := Option.some.inj hout
    exact ⟨List.perm_insertionSort dateGE _, List.sorted_insertionSort dateGE _⟩

/-- Witness for C5: merging tables of 3 and 2 rows succeeds and gives the
5 input rows as a permutation of the concatenation, sorted by date
descending. -/
theorem merger_concat_sort_witness :
    tablesEx ≠ [] ∧
    (load_and_transform_data_from_sources tablesEx).isSome = true ∧
    ((sortByDateDesc tablesEx.flatten).Perm tablesEx.flatten ∧
     (sortByDateDesc tablesEx.flatten).Sorted dateGE) :=
  ⟨by decide, (merger_concat_sort tablesEx (by decide)).1,
    (merger_concat_sort tablesEx (by decide)).2 (sortByDateDesc tablesEx.flatten) (by decide)⟩

/-- C6: after the sign-based classifier has set `Type`, the reclassifier
forces `Type = "Investment"` on every `Investments` row and
`Type = "Transfer"` on every `Transfers` row, regardless of the amount's
sign, and leaves every other row's sign-based `Type` unchanged. -/
theorem reclassify_types :
    ∀ f : Frame, (∀ r ∈ f.rows, r.type = some (signType r.amount)) →
      ∀ r ∈ (reclassify_stage f).rows,
        ((r.category = some "Investments" → r.type = some "Investment") ∧
         (r.category = some "Transfers" → r.type = some "Transfer") ∧
         (r.category ≠ some "Investments" → r.category ≠ some "Transfers" →
            r.type = some (signType r.amount))) := by
  intro f hf r hr
  unfold reclassify_stage at hr
  simp only [List.map_map, List.mem_map, Function.comp] at hr
  obtain ⟨r0, hr0, rfl⟩ := hr
  have ht := hf r0 hr0
  by_cases hI : r0.category = some "Investments"
  · have hnT : r0.category ≠ some "Transfers" := by
      rw [hI]
      decide
    rw [if_pos hI, if_neg (show ¬ ({ r0 with type := some "Investment" } : FRow).category =
      some "Transfers" by simpa using hnT)]
    refine ⟨fun _ => rfl, fun h => absurd (by simpa using h) hnT, fun h _ => ?_⟩
    exact absurd (by simpa using hI) (by simpa using h)
  · rw [if_neg hI]
    by_cases hT : r0.category = some "Transfers"
    · rw [if_pos hT]
      refine ⟨fun h => ?_, fun _ => rfl, fun _ h => ?_⟩
      · exact absurd (show r0.category = some "Investments" by simpa using h) hI
      · exact absurd (show r0.category = some "Transfers" by simpa using hT) (by simpa using h)
    · rw [if_neg hT]
      exact ⟨fun h => absurd h hI, fun h => absurd h hT, fun _ _ => ht⟩

/-- Witness for C6: a row with `Amount = 500` (sign-based type `"Income"`)
and `Category = "Investments"` ends with `Type = "Investment"`. -/
theorem reclassify_types_witness :
    (investRowOut.category = some "Investments" → investRowOut.type = some "Investment") ∧
    (investRowOut.category = some "Transfers" → investRowOut.type = some "Transfer") ∧
    (investRowOut.category ≠ some "Investments" → investRowOut.category ≠ some "Transfers" →
      investRowOut.type = some (signType investRowOut.amount)) :=
  reclassify_types investFrame (by decide) investRowOut (by decide)

/-- C7: the top-25 table is a subset of the full aggregate, has
`min 25 n` rows where `n` is the number of groups (hence at most 25, and
fewer exactly when there are fewer groups), and is sorted by `Amount`
descending. -/
theorem aggregate_top25 :
    ∀ rows : List ARow,
      ((∀ x ∈ (aggregate_report_tables rows).2, x ∈ (aggregate_report_tables rows).1) ∧
       (aggregate_report_tables rows).2.length ≤ 25 ∧
       (aggregate_report_tables rows).2.length = min 25 (aggregate_report_tables rows).1.length ∧
       (aggregate_report_tables rows).2.Sorted amountGE) := by
  intro rows
  refine ⟨?_, ?_, ?_, ?_⟩
  · intro x hx
    rw [show (aggregate_report_tables rows).2 =
      (((groupagg rows).insertionSort amountGE).take 25).insertionSort amountGE from rfl,
      List.mem_insertionSort] at hx
    have hmem := List.mem_of_mem_take hx
    rwa [List.mem_insertionSort] at hmem
  · rw [show (aggregate_report_tables rows).2 =
      (((groupagg rows).insertionSort amountGE).take 25).insertionSort amountGE from rfl,
      (List.perm_insertionSort amountGE _).length_eq, List.length_take]
    exact min_le_left _ _
  · rw [show (aggregate_report_tables rows).2 =
      (((groupagg rows).insertionSort amountGE).take 25).insertionSort amountGE from rfl,
      (List.perm_insertionSort amountGE _).length_eq, List.length_take,
      (List.perm_insertionSort amountGE (groupagg rows)).length_eq]
    rfl
  · exact List.sorted_insertionSort amountGE _

/-- Witness for C7: on three input rows forming two groups, the aggregate
row `(1, 15)` appears in the full result and the top-25 subset has
`min 25 2 = 2` rows. -/
theorem aggregate_top25_witness :
    (⟨1, 15⟩ : ARow) ∈ (aggregate_report_tables aggRowsEx).1 ∧
    (aggregate_report_tables aggRowsEx).2.length = min 25 (aggregate_report_tables aggRowsEx).1.length :=
  ⟨(aggregate_top25 aggRowsEx).1 ⟨1, 15⟩ (by decide), (aggregate_top25 aggRowsEx).2.2.1⟩

/-- C8: the `Week` and `WeekNumber` columns follow ISO-8601 week numbering
with the week-based year: for 2024-12-31 (a Tuesday of the year-crossing
week) `Week = "2025-W01"` and `WeekNumber = 1`; the converse crossing also
holds (2021-01-01 belongs to 2020-W53). -/
theorem iso_week_columns :
    weekColumn 2024 12 31 = "2025-W01" ∧ weekNumberColumn 2024 12 31 = 1 ∧
    isocalendar 2021 1 1 = (2020, 53) := by
  decide

/-- C9: source enrichment fails exactly when `path` or `type` is absent,
and otherwise completes the descriptor, defaulting `modifier` to `1.0` and
`account` to `"Default"` while keeping every present field unchanged. -/
theorem enrich_source_spec :
    ∀ s : RawSource,
      (((∃ e, load_and_transform_data_from_source_enrich_source s = .error e) ↔
          (s.path = none ∨ s.type = none)) ∧
       ∀ p t, s.path = some p → s.type = some t →
         load_and_transform_data_from_source_enrich_source s =
           .ok { path := p, type := t, modifier := s.modifier.getD 1,
                 account := s.account.getD "Default" }) := by
  intro s
  obtain ⟨op, ot, om, oa⟩ := s
  constructor
  · cases op <;> cases ot <;>
      simp [load_and_transform_data_from_source_enrich_source]
  · intro p t hp ht
    cases op <;> cases ot <;> simp_all [load_and_transform_data_from_source_enrich_source]

/-- Witness for C9: a descriptor with `path` and `type` but neither
`modifier` nor `account` is completed with the defaults. -/
theorem enrich_source_witness :
    load_and_transform_data_from_source_enrich_source ⟨some "a.csv", some "bank", none, none⟩ =
      .ok { path := "a.csv", type := "bank", modifier := 1, account := "Default" } :=
  (enrich_source_spec ⟨some "a.csv", some "bank", none, none⟩).2 "a.csv" "bank" rfl rfl

/-- C10 (counterexample): with no `Amount` column the per-source pipeline
does fail, but in the Cleaner — `dropna(subset=['Amount'])` raises a
`KeyError` at line 97 — not at the modifier application of line 153, which
is never reached. -/
theorem pipeline_missing_amount_fails_in_cleaner :
    load_and_transform_data_from_source_mapped sampleSource noBounds [] noAmountFrame =
      .error (.cleanData, .keyError "Amount") ∧
    Stage.cleanData ≠ Stage.applyModifierStage := by
  decide

/-- C10 (amended): for every mapped table without an `Amount` column the
pipeline fails in the Cleaner's `dropna` step (on `Amount`, or already on
`Date` when that column is missing too) rather than completing, and the
Amount Classifier stage is indeed a no-op on such a table. -/
theorem pipeline_missing_amount :
    ∀ (src : Source) (st : SourceType) (rules : List (String × List String)) (f0 : Frame),
      f0.hasAmount = false →
      (load_and_transform_data_from_source_mapped src st rules f0 =
        .error (.cleanData, .keyError (if f0.hasDate then "Amount" else "Date")) ∧
       load_and_transform_data_from_source_add_additional_columns_from_amount f0 = f0) := by
  intro src st rules f0 h
  by_cases hd : f0.hasDate <;>
    simp [load_and_transform_data_from_source_mapped,
      load_and_transform_data_from_source_add_additional_columns_from_date,
      load_and_transform_data_from_source_add_additional_columns_from_amount,
      load_and_transform_data_from_source_clean_data, stageErr, h, hd]

/-- Witness for C10 at a concrete mapped table with `Date` but no
`Amount`. -/
theorem pipeline_missing_amount_witness :
    noAmountFrame.hasAmount = false ∧
    load_and_transform_data_from_source_mapped sampleSource noBounds [] noAmountFrame =
      .error (.cleanData, .keyError (if noAmountFrame.hasDate then "Amount" else "Date")) :=
  ⟨rfl, (pipeline_missing_amount sampleSource noBounds [] noAmountFrame rfl).1⟩

end Bank
